import Mathlib

/-!
Verification of the mangrove / mongo_odm query builder
(`src/mongo_odm/query_builder.hpp`).

The expression AST (ComparisonExpr, NotExpr, ExpressionList, BooleanExpr)
is embedded as Lean structures and a closed inductive.  The bsoncxx
`builder::core` that the `append_to_bson` member functions write into is
embedded as a stack machine over a stream of builder calls
(`key_view`, `open_document`, `close_document`, `open_array`,
`close_array`, `append`); the conversion `operator view_or_value`
(build into a fresh core in document mode, then `extract_document`)
becomes `serialize`.
-/

namespace MongoOdm

/-- A BSON value produced by the builder: a primitive scalar, a nested
document (an ordered key/value list; BSON permits duplicate keys), or an
array. -/
inductive BVal (V : Type) where
  | prim : V → BVal V
  | doc : List (String × BVal V) → BVal V
  | arr : List (BVal V) → BVal V

/-- One call on a `bsoncxx::builder::core`, as issued by the
`append_to_bson` member functions. -/
inductive Tok (V : Type) where
  | key_view : String → Tok V
  | open_document : Tok V
  | close_document : Tok V
  | open_array : Tok V
  | close_array : Tok V
  | append : V → Tok V

/-- One open frame of a `builder::core`: a document under construction
(elements so far, plus the pending key set by `key_view` and not yet
consumed), or an array under construction. -/
inductive Frame (V : Type) where
  | docF : List (String × BVal V) → Option String → Frame V
  | arrF : List (BVal V) → Frame V

/-- The effect of one builder call on the frame stack (top of stack
first).  Calls that the real core builder rejects (for instance a value
appended into a document with no pending key) yield `none`. -/
def step {V : Type} : Tok V → List (Frame V) → Option (List (Frame V))
  | Tok.key_view s, Frame.docF elems none :: st =>
      some (Frame.docF elems (some s) :: st)
  | Tok.key_view _, _ => none
  | Tok.append v, Frame.docF elems (some k) :: st =>
      some (Frame.docF (elems ++ [(k, BVal.prim v)]) none :: st)
  | Tok.append v, Frame.arrF elems :: st =>
      some (Frame.arrF (elems ++ [BVal.prim v]) :: st)
  | Tok.append _, _ => none
  | Tok.open_document, Frame.docF elems (some k) :: st =>
      some (Frame.docF [] none :: Frame.docF elems (some k) :: st)
  | Tok.open_document, Frame.arrF elems :: st =>
      some (Frame.docF [] none :: Frame.arrF elems :: st)
  | Tok.open_document, _ => none
  | Tok.open_array, Frame.docF elems (some k) :: st =>
      some (Frame.arrF [] :: Frame.docF elems (some k) :: st)
  | Tok.open_array, Frame.arrF elems :: st =>
      some (Frame.arrF [] :: Frame.arrF elems :: st)
  | Tok.open_array, _ => none
  | Tok.close_document, Frame.docF elems none :: Frame.docF pelems (some k) :: st =>
      some (Frame.docF (pelems ++ [(k, BVal.doc elems)]) none :: st)
  | Tok.close_document, Frame.docF elems none :: Frame.arrF pelems :: st =>
      some (Frame.arrF (pelems ++ [BVal.doc elems]) :: st)
  | Tok.close_document, _ => none
  | Tok.close_array, Frame.arrF elems :: Frame.docF pelems (some k) :: st =>
      some (Frame.docF (pelems ++ [(k, BVal.arr elems)]) none :: st)
  | Tok.close_array, Frame.arrF elems :: Frame.arrF pelems :: st =>
      some (Frame.arrF (pelems ++ [BVal.arr elems]) :: st)
  | Tok.close_array, _ => none

/-- Run a sequence of builder calls. -/
def runToks {V : Type} : List (Tok V) → List (Frame V) → Option (List (Frame V))
  | [], st => some st
  | t :: ts, st => (step t st).bind (runToks ts)

/-- `extract_document`: succeeds exactly when the builder holds a single
completed root document with no pending key. -/
def extract_document {V : Type} : List (Frame V) → Option (List (String × BVal V))
  | [Frame.docF elems none] => some elems
  | _ => none

/-- A name-value pair (`Nvp<Base, T>` of `mongo_odm/nvp.hpp`): a member
accessor together with the field's registered name.  `A` stands for the
member-pointer type `T Base::*`; only `name` is consulted by
serialization. -/
structure Nvp (A : Type) where
  t : A
  name : String

/-- `ComparisonExpr<Base, T>`: a name-value pair, the compared value, and
the comparison selector such as `$eq` (field `selector_type`). -/
structure ComparisonExpr (A V : Type) where
  nvp : Nvp A
  field : V
  selector_type : String

/-- `NotExpr<Base, T>`: wraps exactly a `ComparisonExpr`, never a
compound expression (its constructor takes `const ComparisonExpr<Base, T> &`). -/
structure NotExpr (A V : Type) where
  expr : ComparisonExpr A V

/-- The closed set of expression node kinds recognised by
`is_expression` in the source: comparison, negation, expression list
(head and tail subexpressions), and boolean combination (two
subexpressions and an operator string). -/
inductive Expr (A V : Type) where
  | cmp : ComparisonExpr A V → Expr A V
  | notE : NotExpr A V → Expr A V
  | list : Expr A V → Expr A V → Expr A V
  | boolE : Expr A V → Expr A V → String → Expr A V

/-- `ComparisonExpr::append_to_bson`: emits
`key_view(name); open_document(); key_view(selector); append(field); close_document()`. -/
def ComparisonExpr.append_to_bson {A V : Type} (c : ComparisonExpr A V) : List (Tok V) :=
  [Tok.key_view c.nvp.name, Tok.open_document, Tok.key_view c.selector_type,
   Tok.append c.field, Tok.close_document]

/-- `NotExpr::append_to_bson`: emits the field name, then a nested
document with key `$not` holding the inner comparison's selector and
value. -/
def NotExpr.append_to_bson {A V : Type} (n : NotExpr A V) : List (Tok V) :=
  [Tok.key_view n.expr.nvp.name, Tok.open_document, Tok.key_view "$not",
   Tok.open_document, Tok.key_view n.expr.selector_type, Tok.append n.expr.field,
   Tok.close_document, Tok.close_document]

/-- `append_to_bson` over the closed node set.
`ExpressionList::append_to_bson` appends the head's calls and then the
tail's calls into the same builder; `BooleanExpr::append_to_bson` emits
the operator key, opens an array, and wraps each side's calls in its own
nested document. -/
def Expr.append_to_bson {A V : Type} : Expr A V → List (Tok V)
  | Expr.cmp c => c.append_to_bson
  | Expr.notE n => n.append_to_bson
  | Expr.list h t => h.append_to_bson ++ t.append_to_bson
  | Expr.boolE l r op =>
      [Tok.key_view op, Tok.open_array, Tok.open_document] ++ l.append_to_bson
        ++ [Tok.close_document, Tok.open_document] ++ r.append_to_bson
        ++ [Tok.close_document, Tok.close_array]

/-- `operator bsoncxx::document::view_or_value`: run the node's builder
calls on a fresh core in document mode and extract the document. -/
def serialize {A V : Type} (e : Expr A V) : Option (List (String × BVal V)) :=
  (runToks e.append_to_bson [Frame.docF [] none]).bind extract_document

/- The operator layer (lines 237-343 of query_builder.hpp).  Each
comparison operator has two overloads: for non-bool `T` the right-hand
side is an arbitrary `U`, implicitly converted to `T` by the
`ComparisonExpr` constructor's value parameter (embedded as the
explicit conversion `conv`); for `T = bool` the right-hand side is
declared with type `T` itself. -/

def opEq {A T U : Type} (lhs : Nvp A) (rhs : U) (conv : U → T) : ComparisonExpr A T :=
  ⟨lhs, conv rhs, "$eq"⟩

def opGt {A T U : Type} (lhs : Nvp A) (rhs : U) (conv : U → T) : ComparisonExpr A T :=
  ⟨lhs, conv rhs, "$gt"⟩

def opGte {A T U : Type} (lhs : Nvp A) (rhs : U) (conv : U → T) : ComparisonExpr A T :=
  ⟨lhs, conv rhs, "$gte"⟩

def opLt {A T U : Type} (lhs : Nvp A) (rhs : U) (conv : U → T) : ComparisonExpr A T :=
  ⟨lhs, conv rhs, "$lt"⟩

def opLte {A T U : Type} (lhs : Nvp A) (rhs : U) (conv : U → T) : ComparisonExpr A T :=
  ⟨lhs, conv rhs, "$lte"⟩

def opNe {A T U : Type} (lhs : Nvp A) (rhs : U) (conv : U → T) : ComparisonExpr A T :=
  ⟨lhs, conv rhs, "$ne"⟩

def opEqBool {A : Type} (lhs : Nvp A) (rhs : Bool) : ComparisonExpr A Bool :=
  ⟨lhs, rhs, "$eq"⟩

def opGtBool {A : Type} (lhs : Nvp A) (rhs : Bool) : ComparisonExpr A Bool :=
  ⟨lhs, rhs, "$gt"⟩

def opGteBool {A : Type} (lhs : Nvp A) (rhs : Bool) : ComparisonExpr A Bool :=
  ⟨lhs, rhs, "$gte"⟩

def opLtBool {A : Type} (lhs : Nvp A) (rhs : Bool) : ComparisonExpr A Bool :=
  ⟨lhs, rhs, "$lt"⟩

def opLteBool {A : Type} (lhs : Nvp A) (rhs : Bool) : ComparisonExpr A Bool :=
  ⟨lhs, rhs, "$lte"⟩

def opNeBool {A : Type} (lhs : Nvp A) (rhs : Bool) : ComparisonExpr A Bool :=
  ⟨lhs, rhs, "$ne"⟩

/-- `operator!` (lines 312-315): defined only on `ComparisonExpr`, so a
compound expression cannot be negated through it. -/
def opNot {A V : Type} (e : ComparisonExpr A V) : NotExpr A V :=
  NotExpr.mk e

/-- `operator,` (lines 321-326): called as `(a, b)` the left operand is
the parameter named `tail` and the right operand the parameter named
`head`; it builds `ExpressionList(head, tail)`. -/
def commaOp {A V : Type} (tail head : Expr A V) : Expr A V :=
  Expr.list head tail

/-- `operator&&` (lines 331-336). -/
def opAnd {A V : Type} (lhs rhs : Expr A V) : Expr A V :=
  Expr.boolE lhs rhs "$and"

/-- `operator||` (lines 338-343). -/
def opOr {A V : Type} (lhs rhs : Expr A V) : Expr A V :=
  Expr.boolE lhs rhs "$or"

/-- The document elements a node contributes to its enclosing document.
This is the specification-level denotation against which the builder
run is proved. -/
def docElems {A V : Type} : Expr A V → List (String × BVal V)
  | Expr.cmp c => [(c.nvp.name, BVal.doc [(c.selector_type, BVal.prim c.field)])]
  | Expr.notE n =>
      [(n.expr.nvp.name,
        BVal.doc [("$not", BVal.doc [(n.expr.selector_type, BVal.prim n.expr.field)])])]
  | Expr.list h t => docElems h ++ docElems t
  | Expr.boolE l r op =>
      [(op, BVal.arr [BVal.doc (docElems l), BVal.doc (docElems r)])]

theorem runToks_append {V : Type} (xs ys : List (Tok V)) (st : List (Frame V)) :
    runToks (xs ++ ys) st = (runToks xs st).bind (runToks ys) := by
  induction xs generalizing st with
  | nil => simp [runToks]
  | cons t ts ih =>
      simp only [List.cons_append, runToks]
      cases step t st with
      | none => simp
      | some st2 => simp [ih st2]

theorem runToks_append_some {V : Type} {xs ys : List (Tok V)}
    {st st1 : List (Frame V)} {r : Option (List (Frame V))}
    (h1 : runToks xs st = some st1) (h2 : runToks ys st1 = r) :
    runToks (xs ++ ys) st = r := by
  rw [runToks_append, h1]
  exact h2

/-- Running a node's builder calls on a stack whose top frame is a
document with no pending key appends exactly `docElems` of the node to
that frame and leaves the rest of the stack unchanged. -/
theorem runToks_append_to_bson {A V : Type} (e : Expr A V) :
    ∀ (elems : List (String × BVal V)) (st : List (Frame V)),
      runToks e.append_to_bson (Frame.docF elems none :: st)
        = some (Frame.docF (elems ++ docElems e) none :: st) := by
  induction e with
  | cmp c => intro elems st; rfl
  | notE n => intro elems st; rfl
  | list h t ihh iht =>
      intro elems st
      have step2 : runToks t.append_to_bson (Frame.docF (elems ++ docElems h) none :: st)
          = some (Frame.docF ((elems ++ docElems h) ++ docElems t) none :: st) := iht _ _
      rw [List.append_assoc] at step2
      exact runToks_append_some (ihh elems st) step2
  | boolE l r op ihl ihr =>
      intro elems st
      have h1 : runToks [Tok.key_view op, Tok.open_array, Tok.open_document]
          (Frame.docF elems none :: st)
          = some (Frame.docF [] none :: Frame.arrF [] :: Frame.docF elems (some op) :: st) := rfl
      have h2 := ihl [] (Frame.arrF [] :: Frame.docF elems (some op) :: st)
      have h3 : runToks [Tok.close_document, Tok.open_document]
          (Frame.docF ([] ++ docElems l) none
            :: Frame.arrF [] :: Frame.docF elems (some op) :: st)
          = some (Frame.docF [] none :: Frame.arrF [BVal.doc ([] ++ docElems l)]
              :: Frame.docF elems (some op) :: st) := rfl
      have h4 := ihr [] (Frame.arrF [BVal.doc ([] ++ docElems l)]
        :: Frame.docF elems (some op) :: st)
      have h5 : runToks [Tok.close_document, Tok.close_array]
          (Frame.docF ([] ++ docElems r) none :: Frame.arrF [BVal.doc ([] ++ docElems l)]
            :: Frame.docF elems (some op) :: st)
          = some (Frame.docF
              (elems ++ [(op, BVal.arr [BVal.doc ([] ++ docElems l),
                 BVal.doc ([] ++ docElems r)])]) none :: st) := rfl
      have hall := runToks_append_some (runToks_append_some (runToks_append_some
        (runToks_append_some h1 h2) h3) h4) h5
      simpa [Expr.append_to_bson, docElems] using hall

/-- Serialization computes the denotation: it always succeeds and
returns exactly the node's document elements. -/
theorem serialize_eq_docElems {A V : Type} (e : Expr A V) :
    serialize e = some (docElems e) := by
  unfold serialize
  rw [runToks_append_to_bson e [] []]
  simp [extract_document]

/- A reified scalar-type universe for the overload layer.  The C++
dispatch is compile-time (`enable_if` on `T`, and the parameter types of
the two overload families); reifying the field's declared type `T` and
the value's type as data lets the dispatch be stated at value level. -/

inductive CppScalarTy where
  | tBool : CppScalarTy
  | tInt32 : CppScalarTy
  | tInt64 : CppScalarTy
  | tString : CppScalarTy
deriving DecidableEq

inductive CppValue where
  | vBool : Bool → CppValue
  | vInt32 : Int → CppValue
  | vInt64 : Int → CppValue
  | vString : String → CppValue
deriving DecidableEq

/-- The narrowing conversion from a 64-bit integer to a 32-bit `int`:
two's-complement wrap-around modulo 2^32 into the range from -2^31 to
2^31 - 1. -/
def wrap32 (n : Int) : Int :=
  (n + 2 ^ 31) % 2 ^ 32 - 2 ^ 31

/-- The implicit conversion performed by `ComparisonExpr`'s constructor
value parameter (`T field`) when the non-bool overload passes it an
argument of type `U`: identity at the same type, arithmetic values
convert among the arithmetic types — with `int64_t` to `int` a
narrowing conversion that wraps to 32 bits — and nothing else
converts.  `none` means `U` is not implicitly convertible to `T`,
which in C++ makes the construction ill-formed. -/
def convertTo : CppValue → CppScalarTy → Option CppValue
  | CppValue.vBool b, CppScalarTy.tBool => some (CppValue.vBool b)
  | CppValue.vBool b, CppScalarTy.tInt32 => some (CppValue.vInt32 (if b then 1 else 0))
  | CppValue.vBool b, CppScalarTy.tInt64 => some (CppValue.vInt64 (if b then 1 else 0))
  | CppValue.vInt32 n, CppScalarTy.tInt32 => some (CppValue.vInt32 n)
  | CppValue.vInt32 n, CppScalarTy.tInt64 => some (CppValue.vInt64 n)
  | CppValue.vInt64 n, CppScalarTy.tInt32 => some (CppValue.vInt32 (wrap32 n))
  | CppValue.vInt64 n, CppScalarTy.tInt64 => some (CppValue.vInt64 n)
  | CppValue.vString s, CppScalarTy.tString => some (CppValue.vString s)
  | _, _ => none

/-- Overload selection for one comparison operator (lines 237-247 of
query_builder.hpp, the same pattern for all six operators), by the
declared signatures: for `T = bool` the only overload is
`operator==(const Nvp<Base, T> &, const T &)`, whose right-hand
parameter is declared with type `T` itself, so the embedding accepts
exactly a boolean value; for every other `T` the overload deduces an
arbitrary `U` and the `ComparisonExpr` constructor converts the value
to `T` (`convertTo`), failing construction when no implicit conversion
exists.  Implicit argument conversions performed by the host language
at the call boundary are outside this embedding, which models what the
declared parameter types accept. -/
def mkComparison {A : Type} (fieldTy : CppScalarTy) (nvp : Nvp A) (v : CppValue)
    (sel : String) : Option (ComparisonExpr A CppValue) :=
  if fieldTy = CppScalarTy.tBool then
    match v with
    | CppValue.vBool b => some (ComparisonExpr.mk nvp (CppValue.vBool b) sel)
    | _ => none
  else
    (convertTo v fieldTy).map fun v2 => ComparisonExpr.mk nvp v2 sel

/-- Modelled from the spec: one entry of the per-type field registry of
`mongo_odm/nvp.hpp` (`MONGO_ODM_MAKE_KEYS`), which is not under `src/`
(only its callers are).  A descriptor binds a field accessor to the
field's declared name. -/
structure FieldDescriptor (A : Type) where
  accessor : A
  name : String
deriving DecidableEq

/-- Modelled from the spec: field-reference resolution (`wrap` of
`mongo_odm/nvp.hpp`, not under `src/`): a linear scan over the
registry's descriptors in order, returning a name-value pair built from
the first descriptor whose accessor equals the given accessor, and
failing when the scan exhausts the registry. -/
def wrap {A : Type} [DecidableEq A] : List (FieldDescriptor A) → A → Option (Nvp A)
  | [], _ => none
  | d :: rest, a => if d.accessor = a then some (Nvp.mk a d.name) else wrap rest a

/-! Claims. -/

/-- C1: for every declared field (name-value pair) and every value of
the field's declared type, serializing the comparison built from them
yields a document with exactly one key, the field's registered name,
mapped to a one-entry nested document whose key is the operator keyword
and whose value is the given value; in particular the equality
constructor yields the registered name mapped to a `$eq` document. -/
theorem c1_comparison_serializes_to_single_key {A V : Type} (nvp : Nvp A) (v : V)
    (sel : String) :
    serialize (Expr.cmp (ComparisonExpr.mk nvp v sel))
        = some [(nvp.name, BVal.doc [(sel, BVal.prim v)])]
    ∧ serialize (Expr.cmp (opEq nvp v id))
        = some [(nvp.name, BVal.doc [("$eq", BVal.prim v)])] :=
  ⟨rfl, rfl⟩

/-- C2: each of the six comparison constructors, in both its overloads
(general value type, and boolean-field), stores exactly the operator
keyword of the fixed table: eq `$eq`, gt `$gt`, gte `$gte`, lt `$lt`,
lte `$lte`, ne `$ne`. -/
theorem c2_operator_keyword_table {A T U : Type} (lhs : Nvp A) (rhs : U) (conv : U → T)
    (b : Bool) :
    (opEq lhs rhs conv).selector_type = "$eq"
    ∧ (opGt lhs rhs conv).selector_type = "$gt"
    ∧ (opGte lhs rhs conv).selector_type = "$gte"
    ∧ (opLt lhs rhs conv).selector_type = "$lt"
    ∧ (opLte lhs rhs conv).selector_type = "$lte"
    ∧ (opNe lhs rhs conv).selector_type = "$ne"
    ∧ (opEqBool lhs b).selector_type = "$eq"
    ∧ (opGtBool lhs b).selector_type = "$gt"
    ∧ (opGteBool lhs b).selector_type = "$gte"
    ∧ (opLtBool lhs b).selector_type = "$lt"
    ∧ (opLteBool lhs b).selector_type = "$lte"
    ∧ (opNeBool lhs b).selector_type = "$ne" :=
  ⟨rfl, rfl, rfl, rfl, rfl, rfl, rfl, rfl, rfl, rfl, rfl, rfl⟩

/-- C3: negation accepts exactly one comparison node — `opNot`'s domain
is `ComparisonExpr` and every `NotExpr` is `opNot` of its inner
comparison — and serializing the negation of a comparison yields the
field name mapped to a `$not` document wrapping the operator keyword
and value. -/
theorem c3_not_wraps_single_comparison {A V : Type} (c : ComparisonExpr A V) :
    serialize (Expr.notE (opNot c))
        = some [(c.nvp.name,
            BVal.doc [("$not", BVal.doc [(c.selector_type, BVal.prim c.field)])])]
    ∧ ∀ n : NotExpr A V, ∃ inner : ComparisonExpr A V, n = opNot inner :=
  ⟨rfl, fun n => ⟨n.expr, rfl⟩⟩

/-- C8: serialization is a total, deterministic function of the
expression tree's structure: for every tree of the four node kinds it
never fails, and its value is fixed by the tree alone (it equals the
tree's denotation `docElems`, so any two calls on the same tree agree). -/
theorem c8_serialize_total_and_deterministic {A V : Type} (e : Expr A V) :
    (serialize e).isSome = true ∧ serialize e = some (docElems e) := by
  refine ⟨?_, serialize_eq_docElems e⟩
  rw [serialize_eq_docElems e]
  rfl

/-- C9: the comma combinator stores its right operand as the list's
head and its left operand as the tail, list serialization appends head
before tail, and hence serializing `(a, b)` for two comparisons emits
b's key/value pair before a's — the reverse of syntactic order. -/
theorem c9_comma_reverses_syntactic_order {A V : Type} (a b : Expr A V)
    (c1 c2 : ComparisonExpr A V) :
    commaOp a b = Expr.list b a
    ∧ serialize (commaOp a b) = some (docElems b ++ docElems a)
    ∧ serialize (commaOp (Expr.cmp c1) (Expr.cmp c2))
        = some [(c2.nvp.name, BVal.doc [(c2.selector_type, BVal.prim c2.field)]),
                (c1.nvp.name, BVal.doc [(c1.selector_type, BVal.prim c1.field)])] := by
  refine ⟨rfl, ?_, rfl⟩
  rw [show commaOp a b = Expr.list b a from rfl, serialize_eq_docElems]
  rfl

/-- C4: for every two expressions, serializing their `$and` (resp.
`$or`) combination yields a document with the single combinator key
mapped to an array of exactly two documents, the serialization of the
left operand followed by that of the right operand. -/
theorem c4_boolean_combination_serialization {A V : Type} (l r : Expr A V)
    (dl dr : List (String × BVal V)) (hl : serialize l = some dl)
    (hr : serialize r = some dr) :
    serialize (opAnd l r) = some [("$and", BVal.arr [BVal.doc dl, BVal.doc dr])]
    ∧ serialize (opOr l r) = some [("$or", BVal.arr [BVal.doc dl, BVal.doc dr])] := by
  rw [serialize_eq_docElems] at hl hr
  have hdl : dl = docElems l := (Option.some.inj hl).symm
  have hdr : dr = docElems r := (Option.some.inj hr).symm
  subst hdl
  subst hdr
  constructor
  · rw [show opAnd l r = Expr.boolE l r "$and" from rfl, serialize_eq_docElems]
    rfl
  · rw [show opOr l r = Expr.boolE l r "$or" from rfl, serialize_eq_docElems]
    rfl

/-- C4 witness: the combination of x equals 5 and y equals 6, over a
unit accessor type and natural-number values. -/
theorem c4_boolean_combination_serialization_witness :
    serialize (opAnd (Expr.cmp (ComparisonExpr.mk (Nvp.mk () "x") (5 : Nat) "$eq"))
        (Expr.cmp (ComparisonExpr.mk (Nvp.mk () "y") (6 : Nat) "$eq")))
      = some [("$and", BVal.arr
          [BVal.doc [("x", BVal.doc [("$eq", BVal.prim 5)])],
           BVal.doc [("y", BVal.doc [("$eq", BVal.prim 6)])]])]
    ∧ serialize (opOr (Expr.cmp (ComparisonExpr.mk (Nvp.mk () "x") (5 : Nat) "$eq"))
        (Expr.cmp (ComparisonExpr.mk (Nvp.mk () "y") (6 : Nat) "$eq")))
      = some [("$or", BVal.arr
          [BVal.doc [("x", BVal.doc [("$eq", BVal.prim 5)])],
           BVal.doc [("y", BVal.doc [("$eq", BVal.prim 6)])]])] :=
  c4_boolean_combination_serialization
    (Expr.cmp (ComparisonExpr.mk (Nvp.mk () "x") (5 : Nat) "$eq"))
    (Expr.cmp (ComparisonExpr.mk (Nvp.mk () "y") (6 : Nat) "$eq")) _ _ rfl rfl

/-- C5 counterexample: for x equals 5 and y equals 6 on distinct
fields, the comma-list serialization (two sibling top-level keys) is a
different document from the `$and` serialization (one `$and` key over
an array), so the claimed equality fails. -/
theorem c5_list_equals_and_counterexample :
    serialize (commaOp (Expr.cmp (ComparisonExpr.mk (Nvp.mk () "x") (5 : Nat) "$eq"))
        (Expr.cmp (ComparisonExpr.mk (Nvp.mk () "y") (6 : Nat) "$eq")))
    ≠ serialize (opAnd (Expr.cmp (ComparisonExpr.mk (Nvp.mk () "x") (5 : Nat) "$eq"))
        (Expr.cmp (ComparisonExpr.mk (Nvp.mk () "y") (6 : Nat) "$eq"))) := by
  intro h
  have h2 := congrArg (Option.map (List.map Prod.fst)) h
  exact absurd h2 (by decide)

/-- C5 amended: for every two comparisons, serializing their comma-list
combination yields the flat document holding both key/value pairs as
top-level siblings (the right operand's pair first) — an implicit
conjunction — and this document is never equal to the `$and` document
produced by the boolean combination (which has the single key `$and`
over a two-element array). -/
theorem c5_list_serializes_flat_not_and {A V : Type} (c1 c2 : ComparisonExpr A V) :
    serialize (commaOp (Expr.cmp c1) (Expr.cmp c2))
        = some [(c2.nvp.name, BVal.doc [(c2.selector_type, BVal.prim c2.field)]),
                (c1.nvp.name, BVal.doc [(c1.selector_type, BVal.prim c1.field)])]
    ∧ serialize (commaOp (Expr.cmp c1) (Expr.cmp c2))
        ≠ serialize (opAnd (Expr.cmp c1) (Expr.cmp c2)) := by
  refine ⟨rfl, ?_⟩
  intro h
  have hL : serialize (commaOp (Expr.cmp c1) (Expr.cmp c2))
      = some [(c2.nvp.name, BVal.doc [(c2.selector_type, BVal.prim c2.field)]),
              (c1.nvp.name, BVal.doc [(c1.selector_type, BVal.prim c1.field)])] := rfl
  have hR : serialize (opAnd (Expr.cmp c1) (Expr.cmp c2))
      = some [("$and", BVal.arr
          [BVal.doc [(c1.nvp.name, BVal.doc [(c1.selector_type, BVal.prim c1.field)])],
           BVal.doc [(c2.nvp.name, BVal.doc [(c2.selector_type, BVal.prim c2.field)])]])] := rfl
  rw [hL, hR] at h
  simp only [Option.some.injEq, List.cons.injEq, Prod.mk.injEq] at h
  exact List.cons_ne_nil _ _ h.2

/-- C6: field-reference resolution succeeds exactly on registered
accessors: an accessor matching no descriptor resolves to `none`
(construction rejected, no reference with a default name is produced),
and a registered accessor — at any position, the registry's accessors
being pairwise distinct — resolves to a reference carrying the
registered name. -/
theorem c6_wrap_resolution {A : Type} [DecidableEq A] (reg : List (FieldDescriptor A)) :
    (∀ a : A, (∀ d ∈ reg, d.accessor ≠ a) → wrap reg a = none)
    ∧ (∀ d ∈ reg, (reg.map FieldDescriptor.accessor).Nodup →
        wrap reg d.accessor = some (Nvp.mk d.accessor d.name)) := by
  induction reg with
  | nil =>
      exact ⟨fun a _ => rfl, fun d hd => absurd hd (List.not_mem_nil d)⟩
  | cons d0 rest ih =>
      constructor
      · intro a ha
        have h0 : d0.accessor ≠ a := ha d0 (List.mem_cons_self d0 rest)
        simp only [wrap, if_neg h0]
        exact ih.1 a fun d hd => ha d (List.mem_cons_of_mem d0 hd)
      · intro d hd hnodup
        have hnd : (∀ x ∈ rest, ¬x.accessor = d0.accessor)
            ∧ (rest.map FieldDescriptor.accessor).Nodup := by simpa using hnodup
        rcases List.mem_cons.mp hd with heq | hmem
        · subst heq
          simp [wrap]
        · have hne : d0.accessor ≠ d.accessor := fun he => hnd.1 d hmem he.symm
          simp only [wrap, if_neg hne]
          exact ih.2 d hmem hnd.2

/-- C6 witness: a two-entry registry and a singleton registry over
natural-number accessors; an absent accessor resolves to `none`, and
the first, last, and singleton entries resolve to their registered
names. -/
theorem c6_wrap_resolution_witness :
    wrap [FieldDescriptor.mk (0 : Nat) "x", FieldDescriptor.mk 1 "y"] 5 = none
    ∧ wrap [FieldDescriptor.mk (0 : Nat) "x", FieldDescriptor.mk 1 "y"] 0
        = some (Nvp.mk 0 "x")
    ∧ wrap [FieldDescriptor.mk (0 : Nat) "x", FieldDescriptor.mk 1 "y"] 1
        = some (Nvp.mk 1 "y")
    ∧ wrap [FieldDescriptor.mk (7 : Nat) "w"] 7 = some (Nvp.mk 7 "w") :=
  ⟨(c6_wrap_resolution [FieldDescriptor.mk (0 : Nat) "x", FieldDescriptor.mk 1 "y"]).1
      5 (by decide),
   (c6_wrap_resolution [FieldDescriptor.mk (0 : Nat) "x", FieldDescriptor.mk 1 "y"]).2
      (FieldDescriptor.mk 0 "x") (by decide) (by decide),
   (c6_wrap_resolution [FieldDescriptor.mk (0 : Nat) "x", FieldDescriptor.mk 1 "y"]).2
      (FieldDescriptor.mk 1 "y") (by decide) (by decide),
   (c6_wrap_resolution [FieldDescriptor.mk (7 : Nat) "w"]).2
      (FieldDescriptor.mk 7 "w") (by decide) (by decide)⟩

/-- C7: the overload pair's declared signatures make construction
reject incompatible values: on a boolean-typed field the resulting
comparison can only hold the boolean value given (first part), a
non-boolean value is rejected for a boolean field (second part), and
for a non-boolean field a value with no implicit conversion to the
field's type is rejected (third part). -/
theorem c7_construction_rejects_type_mismatch {A : Type} (fieldTy : CppScalarTy)
    (nvp : Nvp A) (v : CppValue) (sel : String) :
    (∀ c, mkComparison CppScalarTy.tBool nvp v sel = some c →
        ∃ b, v = CppValue.vBool b ∧ c.field = CppValue.vBool b)
    ∧ ((∀ b, v ≠ CppValue.vBool b) → mkComparison CppScalarTy.tBool nvp v sel = none)
    ∧ (fieldTy ≠ CppScalarTy.tBool → convertTo v fieldTy = none →
        mkComparison fieldTy nvp v sel = none) := by
  refine ⟨?_, ?_, ?_⟩
  · intro c hc
    cases v with
    | vBool b =>
        refine ⟨b, rfl, ?_⟩
        have h2 : (some (ComparisonExpr.mk nvp (CppValue.vBool b) sel)
            : Option (ComparisonExpr A CppValue)) = some c := hc
        rw [← Option.some.inj h2]
    | vInt32 n => exact Option.noConfusion hc
    | vInt64 n => exact Option.noConfusion hc
    | vString s => exact Option.noConfusion hc
  · intro hall
    cases v with
    | vBool b => exact absurd rfl (hall b)
    | vInt32 n => rfl
    | vInt64 n => rfl
    | vString s => rfl
  · intro hty hconv
    unfold mkComparison
    rw [if_neg hty, hconv]
    rfl

/-- C7 witness: a boolean field rejects the integer 5 and accepts the
boolean true unchanged; a string field rejects the integer 5. -/
theorem c7_construction_rejects_type_mismatch_witness :
    mkComparison CppScalarTy.tBool (Nvp.mk () "y") (CppValue.vInt32 5) "$eq" = none
    ∧ mkComparison CppScalarTy.tString (Nvp.mk () "z") (CppValue.vInt32 5) "$eq" = none
    ∧ ∃ b, CppValue.vBool true = CppValue.vBool b
        ∧ (ComparisonExpr.mk (Nvp.mk () "y") (CppValue.vBool true) "$eq").field
            = CppValue.vBool b :=
  ⟨(c7_construction_rejects_type_mismatch CppScalarTy.tBool (Nvp.mk () "y")
      (CppValue.vInt32 5) "$eq").2.1 (by decide),
   (c7_construction_rejects_type_mismatch CppScalarTy.tString (Nvp.mk () "z")
      (CppValue.vInt32 5) "$eq").2.2 (by decide) (by decide),
   (c7_construction_rejects_type_mismatch CppScalarTy.tBool (Nvp.mk () "y")
      (CppValue.vBool true) "$eq").1
      (ComparisonExpr.mk (Nvp.mk () "y") (CppValue.vBool true) "$eq") rfl⟩

/-- C10: for a non-boolean field type, construction accepts any value
with an implicit conversion to the field's type, stores the converted
value, and the serialized document therefore contains the converted
value rather than the original. -/
theorem c10_nonbool_stores_converted_value {A : Type} (fieldTy : CppScalarTy)
    (nvp : Nvp A) (v v2 : CppValue) (sel : String)
    (hty : fieldTy ≠ CppScalarTy.tBool) (hconv : convertTo v fieldTy = some v2) :
    mkComparison fieldTy nvp v sel = some (ComparisonExpr.mk nvp v2 sel)
    ∧ serialize (Expr.cmp (ComparisonExpr.mk nvp v2 sel))
        = some [(nvp.name, BVal.doc [(sel, BVal.prim v2)])] := by
  refine ⟨?_, rfl⟩
  unfold mkComparison
  rw [if_neg hty, hconv]
  rfl

/-- C10 witness: an int32 field compared to the boolean true stores the
converted integer 1, and the serialized document contains 1, not the
boolean; an int32 field compared to the 64-bit value 2^35 stores the
narrowed (wrapped) value 0, and the serialized document contains 0,
not 2^35. -/
theorem c10_nonbool_stores_converted_value_witness :
    (mkComparison CppScalarTy.tInt32 (Nvp.mk () "age") (CppValue.vBool true) "$eq"
        = some (ComparisonExpr.mk (Nvp.mk () "age") (CppValue.vInt32 1) "$eq")
    ∧ serialize (Expr.cmp (ComparisonExpr.mk (Nvp.mk () "age") (CppValue.vInt32 1) "$eq"))
        = some [("age", BVal.doc [("$eq", BVal.prim (CppValue.vInt32 1))])])
    ∧ mkComparison CppScalarTy.tInt32 (Nvp.mk () "w") (CppValue.vInt64 (2 ^ 35)) "$eq"
        = some (ComparisonExpr.mk (Nvp.mk () "w") (CppValue.vInt32 0) "$eq")
    ∧ serialize (Expr.cmp (ComparisonExpr.mk (Nvp.mk () "w") (CppValue.vInt32 0) "$eq"))
        = some [("w", BVal.doc [("$eq", BVal.prim (CppValue.vInt32 0))])] :=
  ⟨c10_nonbool_stores_converted_value CppScalarTy.tInt32 (Nvp.mk () "age")
      (CppValue.vBool true) (CppValue.vInt32 1) "$eq" (by decide) (by decide),
   c10_nonbool_stores_converted_value CppScalarTy.tInt32 (Nvp.mk () "w")
      (CppValue.vInt64 (2 ^ 35)) (CppValue.vInt32 0) "$eq" (by decide) (by decide)⟩

end MongoOdm
